import Mathlib

/-!
# Verification of the Flock nexmark lambda stage runtime

A shallow embedding of `src/function/src/aws/nexmark/lambda.rs` and
`src/function/src/aws/nexmark/utils.rs` (the generic AWS Lambda stage
runtime of the Flock serverless query engine), together with models of the
`runtime`-crate collaborators that the spec describes but whose sources are
not part of this tree (payload codec, uuid builder, reassembly arena,
next-function selection, coalesce/repartition).  Record batches are
abstracted as lists of rows, rows as lists of natural-number cells, and the
wire buffer as a list of naturals.
-/

/-! ## Data model -/

/-- A row of a columnar record batch, cells abstracted as naturals. -/
def Row : Type := List Nat

deriving instance DecidableEq, Repr for Row

/-- An Arrow `RecordBatch`, abstracted to its rows. -/
structure RecordBatch where
  rows : List Row
deriving DecidableEq, Repr

/-- `RecordBatch::new_empty` has no rows; emptiness is row emptiness. -/
def RecordBatch.is_empty (b : RecordBatch) : Bool := b.rows.isEmpty

/-- One partition of data: a vector of record batches. -/
def Partition : Type := List RecordBatch

deriving instance DecidableEq, Repr for Partition

/-- Modelled from the spec: the group identity of one fan-out, produced by
the `runtime` crate's `UuidBuilder` (not under `src/`): "stage name + a
monotonic fan-out counter" standing for the builder's internal timestamp. -/
structure GroupId where
  stage : String
  fanout_ctr : Nat
deriving DecidableEq, Repr

/-- The task identifier carried by every wire payload: the fan-out's group
identity, this fragment's sequence index, and the fragment count. -/
structure Uuid where
  tid : GroupId
  seq_num : Nat
  seq_len : Nat
deriving DecidableEq, Repr

/-- Modelled from the spec: the `runtime` crate's `UuidBuilder` (not under
`src/`): one fan-out's minting state, shared by all fragments. -/
structure UuidBuilder where
  tid : GroupId
  len : Nat
deriving DecidableEq, Repr

/-- `UuidBuilder::new(&ctx.name, batches.len())`; the monotonic counter
models the entropy that keeps distinct fan-outs distinct. -/
def UuidBuilder.new (name : String) (ctr : Nat) (len : Nat) : UuidBuilder :=
  { tid := { stage := name, fanout_ctr := ctr }, len := len }

/-- `uuid_builder.get(i)`: the task id of fragment `i` of this fan-out. -/
def UuidBuilder.get (b : UuidBuilder) (i : Nat) : Uuid :=
  { tid := b.tid, seq_num := i, seq_len := b.len }

/-- Modelled from the spec: mint `k` task ids for one fan-out
(`UuidBuilder::new` followed by `get(0) .. get(k-1)`). -/
def mint (name : String) (ctr : Nat) (k : Nat) : List Uuid :=
  (List.range k).map (UuidBuilder.new name ctr k).get

/-- The routing variant of a stage (`CloudFunction` in the `runtime`
crate): terminal, a single named downstream, or a named downstream group
with a fan-out width. -/
inductive CloudFunction where
  | None : CloudFunction
  | Solo : String → CloudFunction
  | Chorus : String → Nat → CloudFunction
deriving DecidableEq, Repr

/-- The windowing mode of a NexMark data source. -/
inductive StreamWindow where
  | NoWindow : StreamWindow
  | Tumbling : Nat → StreamWindow
  | Hopping : Nat → Nat → StreamWindow
  | Sliding : Nat → Nat → StreamWindow
  | Session : Nat → StreamWindow
deriving DecidableEq, Repr

/-- A NexMark source descriptor; the handler only consults its window. -/
structure NexMarkConf where
  window : StreamWindow
deriving DecidableEq, Repr

/-- The data source of a stage: an upstream wire payload, an external
NexMark event, or some other source (unimplemented in the handler). -/
inductive DataSource where
  | Payload : DataSource
  | NexMarkEvent : NexMarkConf → DataSource
  | UnknownEvent : DataSource
deriving DecidableEq, Repr

/-- The stage descriptor (`ExecutionContext` in the `runtime` crate), as
populated by the bench driver: opaque sub-plan handle, stage name, routing,
data source, query number and debug flag. -/
structure ExecutionContext where
  plan : Nat
  name : String
  next : CloudFunction
  datasource : DataSource
  query_number : Option Nat
  debug : Bool
deriving DecidableEq, Repr

/-- The JSON values the handlers produce: `serde_json::to_value` of a
string is a JSON string scalar. -/
inductive Json where
  | str : String → Json
deriving DecidableEq, Repr

/-! ## Wire codec

Modelled from the spec: `Payload::to_bytes` / `Payload::to_batch` live in
the `runtime` crate, not under `src/`.  The wire buffer is self-describing:
a compression tag, the task id, then the (possibly compressed) serialized
batches.  The byte alphabet is abstracted to `Nat`. -/

/-- The compression tag of a payload (`Encoding` in the `runtime` crate):
identity, or a general compressor modelled as run-length coding. -/
inductive Encoding where
  | plain : Encoding
  | zstd : Encoding
deriving DecidableEq, Repr

/-- `Encoding::default()` selects the general compressor. -/
def Encoding.default : Encoding := Encoding.zstd

/-- Serialize one token. -/
def encNat (n : Nat) : List Nat := [n]

/-- Consume one token. -/
def decNat : List Nat → Option (Nat × List Nat)
  | [] => none
  | n :: rest => some (n, rest)

/-- Serialize a list: length prefix, then each element. -/
def encList (encA : α → List Nat) (l : List α) : List Nat :=
  encNat l.length ++ (l.map encA).flatten

/-- Consume exactly `n` elements. -/
def decMany (decA : List Nat → Option (α × List Nat)) :
    Nat → List Nat → Option (List α × List Nat)
  | 0, s => some ([], s)
  | n + 1, s =>
    match decA s with
    | none => none
    | some (a, s') =>
      match decMany decA n s' with
      | none => none
      | some (as, s'') => some (a :: as, s'')

/-- Consume a length-prefixed list. -/
def decList (decA : List Nat → Option (α × List Nat)) (s : List Nat) :
    Option (List α × List Nat) :=
  match decNat s with
  | none => none
  | some (n, s') => decMany decA n s'

theorem decNat_enc (n : Nat) (r : List Nat) : decNat (encNat n ++ r) = some (n, r) := rfl

theorem decMany_enc (decA : List Nat → Option (α × List Nat)) (encA : α → List Nat)
    (hA : ∀ a r, decA (encA a ++ r) = some (a, r)) :
    ∀ (l : List α) (r : List Nat),
      decMany decA l.length ((l.map encA).flatten ++ r) = some (l, r) := by
  intro l
  induction l with
  | nil => intro r; rfl
  | cons a as ih =>
    intro r
    simp only [List.map_cons, List.flatten_cons, List.length_cons, List.append_assoc]
    simp only [decMany, hA a ((as.map encA).flatten ++ r), ih r]

theorem decList_enc (decA : List Nat → Option (α × List Nat)) (encA : α → List Nat)
    (hA : ∀ a r, decA (encA a ++ r) = some (a, r)) (l : List α) (r : List Nat) :
    decList decA (encList encA l ++ r) = some (l, r) := by
  simp only [decList, encList, List.append_assoc, decNat_enc]
  exact decMany_enc decA encA hA l r

/-- Serialize a character as its code point. -/
def encChar (c : Char) : List Nat := [c.toNat]

/-- Consume a character. -/
def decChar : List Nat → Option (Char × List Nat)
  | [] => none
  | n :: rest => some (Char.ofNat n, rest)

theorem decChar_enc (c : Char) (r : List Nat) : decChar (encChar c ++ r) = some (c, r) := by
  simp only [encChar, decChar, List.cons_append, List.nil_append, Char.ofNat_toNat]

/-- Serialize a string as a length-prefixed run of code points. -/
def encString (s : String) : List Nat := encList encChar s.data

/-- Consume a string. -/
def decString (s : List Nat) : Option (String × List Nat) :=
  match decList decChar s with
  | none => none
  | some (cs, rest) => some (String.mk cs, rest)

theorem decString_enc (s : String) (r : List Nat) :
    decString (encString s ++ r) = some (s, r) := by
  simp only [decString, encString, decList_enc decChar encChar decChar_enc]

/-- Serialize a row. -/
def encRow (w : Row) : List Nat := encList encNat w

/-- Consume a row. -/
def decRow (s : List Nat) : Option (Row × List Nat) := decList decNat s

theorem decRow_enc (w : Row) (r : List Nat) : decRow (encRow w ++ r) = some (w, r) :=
  decList_enc decNat encNat decNat_enc w r

/-- Serialize a record batch. -/
def encBatch (b : RecordBatch) : List Nat := encList encRow b.rows

/-- Consume a record batch. -/
def decBatch (s : List Nat) : Option (RecordBatch × List Nat) :=
  match decList decRow s with
  | none => none
  | some (rs, rest) => some ({ rows := rs }, rest)

theorem decBatch_enc (b : RecordBatch) (r : List Nat) :
    decBatch (encBatch b ++ r) = some (b, r) := by
  simp only [decBatch, encBatch, decList_enc decRow encRow decRow_enc]

/-- Serialize a group identity. -/
def encGroupId (g : GroupId) : List Nat := encString g.stage ++ encNat g.fanout_ctr

/-- Consume a group identity. -/
def decGroupId (s : List Nat) : Option (GroupId × List Nat) :=
  match decString s with
  | none => none
  | some (nm, s') =>
    match decNat s' with
    | none => none
    | some (ctr, s'') => some ({ stage := nm, fanout_ctr := ctr }, s'')

theorem decGroupId_enc (g : GroupId) (r : List Nat) :
    decGroupId (encGroupId g ++ r) = some (g, r) := by
  simp only [decGroupId, encGroupId, List.append_assoc, decString_enc, decNat_enc]

/-- Serialize a task id. -/
def encUuid (u : Uuid) : List Nat := encGroupId u.tid ++ encNat u.seq_num ++ encNat u.seq_len

/-- Consume a task id. -/
def decUuid (s : List Nat) : Option (Uuid × List Nat) :=
  match decGroupId s with
  | none => none
  | some (g, s') =>
    match decNat s' with
    | none => none
    | some (sn, s'') =>
      match decNat s'' with
      | none => none
      | some (sl, s''') => some ({ tid := g, seq_num := sn, seq_len := sl }, s''')

theorem decUuid_enc (u : Uuid) (r : List Nat) :
    decUuid (encUuid u ++ r) = some (u, r) := by
  simp only [decUuid, encUuid, List.append_assoc, decGroupId_enc, decNat_enc]

/-! ### Compression

Modelled from the spec: "identity or a general compressor"; the general
compressor is realized as an invertible run-length coding. -/

/-- Run-length encode into (value, count) pairs. -/
def rleEncode (l : List Nat) : List (Nat × Nat) :=
  l.foldr
    (fun x p =>
      match p with
      | [] => [(x, 1)]
      | (y, k) :: rest => if x = y then (y, k + 1) :: rest else (x, 1) :: (y, k) :: rest)
    []

/-- Expand (value, count) pairs back into a token run. -/
def rleDecode (ps : List (Nat × Nat)) : List Nat :=
  (ps.map (fun p => List.replicate p.2 p.1)).flatten

/-- Flatten pairs onto the wire. -/
def encPairs (ps : List (Nat × Nat)) : List Nat :=
  (ps.map (fun p => [p.1, p.2])).flatten

/-- Parse the whole buffer back into pairs; fails on odd length. -/
def decPairs : List Nat → Option (List (Nat × Nat))
  | [] => some []
  | [_] => none
  | v :: k :: rest =>
    match decPairs rest with
    | none => none
    | some ps => some ((v, k) :: ps)

theorem decPairs_encPairs (ps : List (Nat × Nat)) : decPairs (encPairs ps) = some ps := by
  induction ps with
  | nil => rfl
  | cons p ps ih =>
    cases p
    simp only [encPairs, List.map_cons, List.flatten_cons, List.cons_append, List.nil_append]
    simp only [encPairs] at ih
    simp only [decPairs, ih]

theorem rleDecode_cons (x : Nat) (p : List (Nat × Nat)) :
    rleDecode
      (match p with
       | [] => [(x, 1)]
       | (y, k) :: rest => if x = y then (y, k + 1) :: rest else (x, 1) :: (y, k) :: rest) =
      x :: rleDecode p := by
  cases p with
  | nil => rfl
  | cons hd rest =>
    cases hd with
    | mk y k =>
      by_cases hxy : x = y
      · subst hxy
        simp [rleDecode, List.replicate_succ]
      · simp [rleDecode, hxy]

theorem rleDecode_rleEncode (l : List Nat) : rleDecode (rleEncode l) = l := by
  induction l with
  | nil => rfl
  | cons x xs ih =>
    have hstep : rleEncode (x :: xs) =
        (match rleEncode xs with
         | [] => [(x, 1)]
         | (y, k) :: rest => if x = y then (y, k + 1) :: rest else (x, 1) :: (y, k) :: rest) := rfl
    rw [hstep, rleDecode_cons, ih]

/-- Compress a serialized buffer under the given tag. -/
def compress : Encoding → List Nat → List Nat
  | Encoding.plain, l => l
  | Encoding.zstd, l => encPairs (rleEncode l)

/-- Decompress a buffer under the given tag. -/
def decompress : Encoding → List Nat → Option (List Nat)
  | Encoding.plain, l => some l
  | Encoding.zstd, l =>
    match decPairs l with
    | none => none
    | some ps => some (rleDecode ps)

theorem decompress_compress (e : Encoding) (l : List Nat) :
    decompress e (compress e l) = some l := by
  cases e with
  | plain => rfl
  | zstd =>
    simp only [compress, decompress, decPairs_encPairs, rleDecode_rleEncode]

/-- The wire tag of a compression mode. -/
def encodingTag : Encoding → Nat
  | Encoding.plain => 0
  | Encoding.zstd => 1

/-- Recover a compression mode from its wire tag. -/
def encodingOfTag : Nat → Option Encoding
  | 0 => some Encoding.plain
  | 1 => some Encoding.zstd
  | _ => none

theorem encodingOfTag_tag (e : Encoding) : encodingOfTag (encodingTag e) = some e := by
  cases e <;> rfl

/-! ### Payload encode / decode -/

/-- Modelled from the spec: the `runtime` crate's payload codec core (not
under `src/`): a self-describing buffer holding the compression tag, the
task id, and the (possibly compressed) serialized batches. -/
def encodePayload (bs : List RecordBatch) (uuid : Uuid) (e : Encoding) : List Nat :=
  encNat (encodingTag e) ++ encUuid uuid ++ compress e (encList encBatch bs)

/-- Modelled from the spec: decode a wire buffer back into its batches and
task id; fails on corruption. -/
def decodePayload (s : List Nat) : Option (List RecordBatch × Uuid) :=
  match decNat s with
  | none => none
  | some (tag, s') =>
    match encodingOfTag tag with
    | none => none
    | some e =>
      match decUuid s' with
      | none => none
      | some (uuid, s'') =>
        match decompress e s'' with
        | none => none
        | some raw =>
          match decList decBatch raw with
          | none => none
          | some (bs, rest) =>
            match rest with
            | [] => some (bs, uuid)
            | _ :: _ => none

theorem decodePayload_encodePayload (bs : List RecordBatch) (uuid : Uuid) (e : Encoding) :
    decodePayload (encodePayload bs uuid e) = some (bs, uuid) := by
  have hbatch : decList decBatch (encList encBatch bs ++ []) = some (bs, []) :=
    decList_enc decBatch encBatch decBatch_enc bs []
  rw [List.append_nil] at hbatch
  simp only [decodePayload, encodePayload, List.append_assoc, decNat_enc,
    encodingOfTag_tag, decUuid_enc, decompress_compress, hbatch]

/-- `Payload::to_bytes(&batch, uuid, encoding)`: one record batch on the
wire (a payload of a single batch). -/
def Payload.to_bytes (b : RecordBatch) (uuid : Uuid) (e : Encoding) : List Nat :=
  encodePayload [b] uuid e

/-- The event value handed to an activation: an upstream wire payload, or
an external NexMark event (persons, auctions, bids as raw rows). -/
structure NexMarkEvent where
  persons : List Row
  auctions : List Row
  bids : List Row
deriving DecidableEq, Repr

/-- The JSON event of one activation, already classified by shape. -/
inductive Event where
  | wire : List Nat → Event
  | nexmark : NexMarkEvent → Event
deriving DecidableEq, Repr

/-- `Payload::to_batch(event)`: decode an event value back into the
payload's batches and task id; a non-payload event fails to decode. -/
def Payload.to_batch : Event → Option (List RecordBatch × Uuid)
  | Event.wire s => decodePayload s
  | Event.nexmark _ => none

/-! ## Reassembly arena

Modelled from the spec: the `runtime` crate's `Arena` (not under `src/`):
group-key → accumulated partitions, expected count taken from the task id;
ready exactly when the counts agree; an explicit drain. -/

/-- The arena: an association from group identity to the partitions
accumulated so far. -/
def Arena : Type := List (GroupId × List (List RecordBatch))

deriving instance DecidableEq, Repr for Arena

/-- `Arena::new()`: the empty arena. -/
def Arena.new : Arena := []

/-- The partitions accumulated for one group. -/
def Arena.lookup (a : Arena) (g : GroupId) : List (List RecordBatch) :=
  match a with
  | [] => []
  | (g', v) :: rest => if g' = g then v else Arena.lookup rest g

/-- Store (replace or insert) the partitions of one group. -/
def Arena.store (a : Arena) (g : GroupId) (v : List (List RecordBatch)) : Arena :=
  match a with
  | [] => [(g, v)]
  | (g', v') :: rest =>
    if g' = g then (g, v) :: rest else (g', v') :: Arena.store rest g v

/-- Remove one group. -/
def Arena.erase (a : Arena) (g : GroupId) : Arena :=
  match a with
  | [] => []
  | (g', v') :: rest => if g' = g then rest else (g', v') :: Arena.erase rest g

/-- `arena.reassemble(event)`: decode the payload, append its batches under
the task id's group, and report whether this insert completed the group
(accumulated count equals `seq_len`). -/
def Arena.reassemble (a : Arena) (event : Event) : Option (Bool × Uuid × Arena) :=
  match Payload.to_batch event with
  | none => none
  | some (bs, uuid) =>
    let received := Arena.lookup a uuid.tid ++ [bs]
    some (received.length = uuid.seq_len, uuid, Arena.store a uuid.tid received)

/-- `arena.batches(tid)`: atomically drain the accumulated partitions of a
ready group. -/
def Arena.batches (a : Arena) (g : GroupId) : List (List RecordBatch) × Arena :=
  (Arena.lookup a g, Arena.erase a g)

/-! ## Next-function selection and coalescing -/

/-- The deploy-time name of member `j` of a downstream group. -/
def groupMember (gname : String) (j : Nat) : String :=
  gname ++ "-" ++ Nat.repr j

/-- Modelled from the spec: `LambdaExecutor::next_function(&ctx)` (in the
`runtime` crate, not under `src/`): the single function name the caller
invokes — the `Solo` target's name, or one member of the `Chorus` group's
static deploy-time list (its first member here); there is no next function
for a terminal stage. -/
def next_function (ctx : ExecutionContext) : Except String String :=
  match ctx.next with
  | CloudFunction.None => Except.error "The next function is not defined."
  | CloudFunction.Solo name => Except.ok name
  | CloudFunction.Chorus gname _ => Except.ok (groupMember gname 0)

/-- The spec's wording for group invocation targets: the member list
visited round-robin, one member per output partition. -/
def roundRobinTargets (gname : String) (width : Nat) (n : Nat) : List String :=
  (List.range n).map (fun i => groupMember gname (i % width))

/-- Modelled from the spec: coalesce one partition's batches toward
`target` rows per output batch (the last may be smaller); never drops,
duplicates, or reorders rows. -/
def coalescePart (target : Nat) : List RecordBatch → List Row → List RecordBatch
  | [], acc => if acc.isEmpty then [] else [{ rows := acc }]
  | b :: rest, acc =>
    let merged := acc ++ b.rows
    if target ≤ merged.length then
      { rows := merged } :: coalescePart target rest []
    else
      coalescePart target rest merged

/-- Modelled from the spec: `LambdaExecutor::coalesce_batches` (in the
`runtime` crate, not under `src/`): coalesce each partition independently,
preserving the partition count. -/
def coalesce_batches (parts : List (List RecordBatch)) (target : Nat) :
    List (List RecordBatch) :=
  parts.map (fun p => coalescePart target p [])

/-! ## Invocation layer -/

/-- An `InvokeAsyncRequest`: target function name and wire payload. -/
structure InvokeRequest where
  function_name : String
  invoke_args : List Nat
deriving DecidableEq, Repr

/-- `invoke_next_functions(ctx, batches)` (the request-building part):
resolve the single next function name, mint one fan-out of task ids, and
build one request per output partition, partition `i` carrying task id
`uuid_builder.get(i)`.  `fanoutCtr` models the uuid builder's internal
timestamp entropy. -/
def invoke_next_functions (ctx : ExecutionContext) (fanoutCtr : Nat)
    (batches : List RecordBatch) : Except String (List InvokeRequest) :=
  match next_function ctx with
  | Except.error e => Except.error e
  | Except.ok next_func =>
    let uuid_builder := UuidBuilder.new ctx.name fanoutCtr batches.length
    Except.ok (batches.enum.map (fun p =>
      { function_name := next_func,
        invoke_args := Payload.to_bytes p.2 (uuid_builder.get p.1) Encoding.default }))

/-- The outcome of one `invoke_async` attempt: a transport error, or a
response with an optional status code. -/
inductive InvokeOutcome where
  | err : InvokeOutcome
  | resp : Option Nat → InvokeOutcome
deriving DecidableEq, Repr

/-- The per-attempt exit test of the retry loop: only a response whose
status is `202 Accepted` breaks the loop. -/
def accepted : InvokeOutcome → Bool
  | InvokeOutcome.resp (some code) => code = 202
  | InvokeOutcome.resp none => false
  | InvokeOutcome.err => false

/-- The request rebuilt by each iteration of the retry loop for output
partition `i`; the attempt number is in scope but unused, so every attempt
sends the identical request. -/
def loop_request (next_func : String) (uuid_builder : UuidBuilder)
    (batch : RecordBatch) (i : Nat) (_attempt : Nat) : InvokeRequest :=
  { function_name := next_func,
    invoke_args := Payload.to_bytes batch (uuid_builder.get i) Encoding.default }

/-- The per-partition retry loop, run against an oracle giving the outcome
of each attempt, with explicit fuel: returns the index of the accepted
attempt, or `none` when the fuel runs out before any acceptance. -/
def invoke_loop (oracle : Nat → InvokeOutcome) : Nat → Nat → Option Nat
  | 0, _ => none
  | fuel + 1, attempt =>
    if accepted (oracle attempt) then some attempt
    else invoke_loop oracle fuel (attempt + 1)

/-! ## Stage runtime -/

/-- The inbound-reassembly test of `payload_handler`: the match on
`ctx.next` — `None` and `Solo` stages reassemble (lambda n to 1), `Chorus`
stages do not (lambda 1 to n). -/
def requires_reassembly : CloudFunction → Bool
  | CloudFunction.None => true
  | CloudFunction.Solo _ => true
  | CloudFunction.Chorus _ _ => false

/-- The `input_partitions` block of `payload_handler` (the branch on
`ctx.next` that either reassembles through the arena or takes the single
decoded payload), with the arena threaded explicitly. -/
def payload_input (ctx : ExecutionContext) (arena : Arena) (event : Event) :
    Except String (List (List RecordBatch)) × Arena :=
  if requires_reassembly ctx.next then
    match Arena.reassemble arena event with
    | none => (Except.error "malformed payload.", arena)
    | some (ready, uuid, a') =>
      if ready then
        let drained := Arena.batches a' uuid.tid
        (Except.ok drained.1, drained.2)
      else
        (Except.error "window data collection has not been completed.", a')
  else
    match Payload.to_batch event with
    | none => (Except.error "malformed payload.", arena)
    | some (batch, _) => (Except.ok [batch], arena)

/-- `payload_handler(ctx, arena, event)`: assemble the input partitions,
reject empty input, run local compute (`exec`, the opaque collaborator),
and unless the stage is terminal coalesce the outputs and build the
downstream invocations; on success the acknowledgment is the JSON
serialization of the stage's name.  The produced invocation requests are
returned alongside the acknowledgment. -/
def payload_handler (exec : List (List RecordBatch) → Except String (List RecordBatch))
    (payload_batch_size : Nat) (fanoutCtr : Nat)
    (ctx : ExecutionContext) (arena : Arena) (event : Event) :
    Except String (Json × List InvokeRequest) × Arena :=
  match payload_input ctx arena event with
  | (Except.error e, a') => (Except.error e, a')
  | (Except.ok input_partitions, a') =>
    if input_partitions.isEmpty || (input_partitions.headD []).isEmpty then
      (Except.error "payload data is empty.", a')
    else
      match exec input_partitions with
      | Except.error e => (Except.error e, a')
      | Except.ok output_partitions =>
        if ctx.next ≠ CloudFunction.None then
          match coalesce_batches [output_partitions] payload_batch_size with
          | [b1] =>
            match invoke_next_functions ctx fanoutCtr b1 with
            | Except.error e => (Except.error e, a')
            | Except.ok reqs => (Except.ok (Json.str ctx.name, reqs), a')
          | _ => (Except.error "assertion failed: 1 == batches.len()", a')
        else
          (Except.ok (Json.str ctx.name, []), a')

/-- Modelled from the spec: `NexMarkSource::to_batch` (in the `nexmark`
crate, not under `src/`): shape a record collection into record batches; an
empty collection yields no batches. -/
def NexMarkSource.to_batch (events : List Row) : List RecordBatch :=
  if events.isEmpty then [] else [{ rows := events }]

/-- Modelled from the spec: `LambdaExecutor::repartition` with
`RoundRobinBatch(n)` (in the `runtime` crate, not under `src/`):
redistribute the batches round-robin across `n` partitions. -/
def repartition (batchess : List (List RecordBatch)) (n : Nat) :
    List (List RecordBatch) :=
  let all := batchess.flatten
  (List.range n).map (fun i => (all.enum.filter (fun p => p.1 % n = i)).map (fun p => p.2))

/-- `feed_one_source(ctx, batches)`: repartition by the configured
parallelism when there are many batches, and feed the result to the
sub-plan; the single-batch case asserts exactly one batch. -/
def feed_one_source (parallelism : Nat) (batches : List RecordBatch) :
    Except String (List (List RecordBatch)) :=
  if batches.length > parallelism then
    Except.ok (repartition [batches] parallelism)
  else if batches.length > 1 then
    Except.ok (repartition [batches] batches.length)
  else if batches.length = 1 then
    Except.ok [batches]
  else
    Except.error "assertion failed: num_batches == 1"

/-- `collect(ctx, value)`: deserialize the external NexMark event, shape
its three record collections into batches, reject an entirely empty event,
feed the query's source collection, and run local compute. -/
def collect (exec : List (List RecordBatch) → Except String (List RecordBatch))
    (parallelism : Nat) (ctx : ExecutionContext) (event : Event) :
    Except String (List RecordBatch) :=
  match event with
  | Event.wire _ => Except.error "failed to deserialize the nexmark event."
  | Event.nexmark ev =>
    let person_batches := NexMarkSource.to_batch ev.persons
    let auction_batches := NexMarkSource.to_batch ev.auctions
    let bid_batches := NexMarkSource.to_batch ev.bids
    if person_batches.isEmpty && auction_batches.isEmpty && bid_batches.isEmpty then
      Except.error "No Nexmark input!"
    else
      match ctx.query_number with
      | some 0 | some 1 | some 2 =>
        match feed_one_source parallelism bid_batches with
        | Except.error e => Except.error e
        | Except.ok parts => exec parts
      | _ => Except.error "unimplemented"

/-- `nexmark_bench_handler(ctx, event)`: for a NexMark source without a
window, run `collect`; windowed modes are unimplemented; the
acknowledgment is the JSON serialization of the stage's name. -/
def nexmark_bench_handler (exec : List (List RecordBatch) → Except String (List RecordBatch))
    (parallelism : Nat) (ctx : ExecutionContext) (event : Event) :
    Except String Json :=
  match ctx.datasource with
  | DataSource.NexMarkEvent source =>
    match source.window with
    | StreamWindow.Tumbling _ => Except.error "unimplemented"
    | StreamWindow.Hopping _ _ => Except.error "unimplemented"
    | StreamWindow.Sliding _ _ => Except.error "unimplemented"
    | StreamWindow.NoWindow =>
      match collect exec parallelism ctx event with
      | Except.error e => Except.error e
      | Except.ok _ => Except.ok (Json.str ctx.name)
    | StreamWindow.Session _ => Except.error "unimplemented"
  | _ => Except.ok (Json.str ctx.name)

/-- The per-activation `handler`: dispatch on the stage's data source. -/
def handler (exec : List (List RecordBatch) → Except String (List RecordBatch))
    (payload_batch_size parallelism fanoutCtr : Nat)
    (ctx : ExecutionContext) (arena : Arena) (event : Event) :
    Except String (Json × List InvokeRequest) × Arena :=
  match ctx.datasource with
  | DataSource.Payload => payload_handler exec payload_batch_size fanoutCtr ctx arena event
  | DataSource.NexMarkEvent _ =>
    (match nexmark_bench_handler exec parallelism ctx event with
     | Except.error e => Except.error e
     | Except.ok v => Except.ok (v, []), arena)
  | _ => (Except.error "unimplemented", arena)

/-! ## Execution-context initialization -/

/-- The process-wide execution context slot (`EXECUTION_CONTEXT`). -/
inductive CloudFunctionContext where
  | Lambda : ExecutionContext → Arena → CloudFunctionContext
  | Uninitialized : CloudFunctionContext
deriving Repr

/-- The warm process state: the context slot, the `Once` latch, and a
count of how many times the descriptor was rehydrated. -/
structure ProcState where
  exec_ctx : CloudFunctionContext
  init_done : Bool
  rehydrate_count : Nat

/-- The state of a cold-started process. -/
def ProcState.fresh : ProcState :=
  { exec_ctx := CloudFunctionContext.Uninitialized, init_done := false, rehydrate_count := 0 }

/-- The `init_context` closure: read the execution-context environment
variable, rehydrate the descriptor (`ExecutionContext::unmarshal`, passed
in as the opaque `unmarshal`) and a fresh arena into the slot; an absent
variable aborts the activation fatally. -/
def init_context (unmarshal : String → ExecutionContext) (env : Option String)
    (st : ProcState) : Except String ProcState :=
  match env with
  | some s =>
    Except.ok { exec_ctx := CloudFunctionContext.Lambda (unmarshal s) Arena.new,
                init_done := st.init_done,
                rehydrate_count := st.rehydrate_count + 1 }
  | none => Except.error "No execution context in the cloud environment."

/-- The `init_exec_context!` macro: in testing mode run `init_context` on
every activation; otherwise latch it behind the `Once` so it runs at most
once per warm process; then hand out the slot's context and arena. -/
def init_exec_context (is_testing : Bool) (unmarshal : String → ExecutionContext)
    (env : Option String) (st : ProcState) :
    Except String (ExecutionContext × Arena × ProcState) :=
  let stepped : Except String ProcState :=
    if is_testing then init_context unmarshal env st
    else if st.init_done then Except.ok st
    else
      match init_context unmarshal env st with
      | Except.error e => Except.error e
      | Except.ok st' => Except.ok { st' with init_done := true }
  match stepped with
  | Except.error e => Except.error e
  | Except.ok st' =>
    match st'.exec_ctx with
    | CloudFunctionContext.Lambda c a => Except.ok (c, a, st')
    | CloudFunctionContext.Uninitialized => Except.error "Uninitialized execution context!"

/-- The process state after `n` activations of a warm non-testing process
(a failed initialization leaves the state unchanged). -/
def runInit (unmarshal : String → ExecutionContext) (env : Option String) : Nat → ProcState
  | 0 => ProcState.fresh
  | n + 1 =>
    match init_exec_context false unmarshal env (runInit unmarshal env n) with
    | Except.ok (_, _, st') => st'
    | Except.error _ => runInit unmarshal env n

deriving instance DecidableEq for Except

/-! ## `utils.rs`: external events to payloads -/

/-- Modelled from the spec: the `runtime` crate's payload value as built by
`to_payload(batch1, batch2, uuid)` (not under `src/`): two batch
collections and the task id. -/
structure FlockPayload where
  data1 : List RecordBatch
  data2 : List RecordBatch
  uuid : Uuid
deriving DecidableEq, Repr

/-- Modelled from the spec: `to_payload` (in the `runtime` crate, not under
`src/`). -/
def to_payload (b1 b2 : List RecordBatch) (uuid : Uuid) : FlockPayload :=
  { data1 := b1, data2 := b2, uuid := uuid }

/-- `nexmark_event_to_payload(events, time, generator, query_number, uuid)`
from `utils.rs`, applied to the already-selected event: reject an event
whose three collections are all empty, then pick the query's source
collections. -/
def nexmark_event_to_payload (event : NexMarkEvent) (query_number : Nat)
    (uuid : Uuid) : Except String FlockPayload :=
  if event.persons.isEmpty && event.auctions.isEmpty && event.bids.isEmpty then
    Except.error "No Nexmark input!"
  else
    match query_number with
    | 0 | 1 | 2 | 5 | 7 =>
      Except.ok (to_payload (NexMarkSource.to_batch event.bids) [] uuid)
    | 3 | 8 =>
      Except.ok (to_payload (NexMarkSource.to_batch event.persons)
        (NexMarkSource.to_batch event.auctions) uuid)
    | 4 | 6 | 9 =>
      Except.ok (to_payload (NexMarkSource.to_batch event.auctions)
        (NexMarkSource.to_batch event.bids) uuid)
    | _ => Except.error "unimplemented"

/-! ## Concrete fixtures for witnesses and counterexamples -/

/-- A five-row record batch. -/
def batchA : RecordBatch := { rows := [[1, 2], [3, 4], [5, 6], [7, 8], [9, 10]] }

/-- A second record batch. -/
def batchB : RecordBatch := { rows := [[11, 12]] }

/-- A complete one-fragment task id. -/
def uuidOne : Uuid := { tid := { stage := "q1", fanout_ctr := 0 }, seq_num := 0, seq_len := 1 }

/-- Fragment 0 of a two-fragment fan-out. -/
def uuidHalf : Uuid := { tid := { stage := "q1", fanout_ctr := 3 }, seq_num := 0, seq_len := 2 }

/-- A wire event carrying `batchA` under the complete task id. -/
def eventOne : Event := Event.wire (encodePayload [batchA] uuidOne Encoding.default)

/-- A wire event carrying `batchA` as the first of two fragments. -/
def eventHalf : Event := Event.wire (encodePayload [batchA] uuidHalf Encoding.default)

/-- A terminal-routed payload stage. -/
def ctxTerminal : ExecutionContext :=
  { plan := 0, name := "q1", next := CloudFunction.None,
    datasource := DataSource.Payload, query_number := some 1, debug := false }

/-- A single-routed payload stage. -/
def ctxSolo : ExecutionContext :=
  { plan := 0, name := "q1", next := CloudFunction.Solo "q1-next",
    datasource := DataSource.Payload, query_number := some 1, debug := false }

/-- A group-routed payload stage with fan-out width 4. -/
def ctxChorus : ExecutionContext :=
  { plan := 0, name := "q1", next := CloudFunction.Chorus "stage2" 4,
    datasource := DataSource.Payload, query_number := some 1, debug := false }

/-- A windowless NexMark-source stage. -/
def ctxNexmark : ExecutionContext :=
  { plan := 0, name := "q2", next := CloudFunction.None,
    datasource := DataSource.NexMarkEvent { window := StreamWindow.NoWindow },
    query_number := some 2, debug := false }

/-- A local compute collaborator that returns its input's batches. -/
def execFlatten : List (List RecordBatch) → Except String (List RecordBatch) :=
  fun parts => Except.ok parts.flatten

/-- A deployment oracle rejecting the first two attempts with `429` and
accepting the third. -/
def oracleReject2 : Nat → InvokeOutcome :=
  fun n => InvokeOutcome.resp (some (if n < 2 then 429 else 202))

/-- A deployment oracle that never accepts. -/
def oracleNever : Nat → InvokeOutcome := fun _ => InvokeOutcome.err

/-- A wire event whose payload carries no batches at all. -/
def eventEmpty : Event := Event.wire (encodePayload [] uuidOne Encoding.default)

/-- An external NexMark event with one bid row only. -/
def eventNexBids : Event :=
  Event.nexmark { persons := [], auctions := [], bids := [[5, 5]] }

/-! ## Helper lemmas -/

theorem Arena.lookup_store (a : Arena) (g : GroupId) (v : List (List RecordBatch)) :
    Arena.lookup (Arena.store a g v) g = v := by
  induction a with
  | nil => simp [Arena.store, Arena.lookup]
  | cons hd rest ih =>
    cases hd with
    | mk g' v' =>
      by_cases h : g' = g
      · simp [Arena.store, Arena.lookup, h]
      · simp [Arena.store, Arena.lookup, h, ih]

theorem invoke_next_functions_ok (ctx : ExecutionContext) (fc : Nat)
    (batches : List RecordBatch) (nf : String) (h : next_function ctx = Except.ok nf) :
    invoke_next_functions ctx fc batches =
      Except.ok (batches.enum.map (fun p =>
        { function_name := nf,
          invoke_args := Payload.to_bytes p.2
            ((UuidBuilder.new ctx.name fc batches.length).get p.1) Encoding.default })) := by
  simp [invoke_next_functions, h]

theorem enum_map_getD (l : List α) (f : Nat × α → β) (i : Nat) (hi : i < l.length)
    (d : β) (da : α) : (l.enum.map f).getD i d = f (i, l.getD i da) := by
  have h1 : (l.enum.map f).getD i d = ((l.enum.map f).get? i).getD d := rfl
  have h2 : l.getD i da = (l.get? i).getD da := rfl
  rw [h1, h2, List.get?_map, List.enum_get?]
  cases hg : l.get? i with
  | none => exact absurd (List.get?_eq_none.mp hg) (Nat.not_le.mpr hi)
  | some a => rfl

theorem enum_map_length (l : List α) (f : Nat × α → β) :
    (l.enum.map f).length = l.length := by
  rw [List.length_map, List.enum_length]

theorem invoke_loop_some (oracle : Nat → InvokeOutcome) :
    ∀ (fuel s k : Nat), invoke_loop oracle fuel s = some k →
      accepted (oracle k) = true ∧ s ≤ k ∧
        ∀ j, s ≤ j → j < k → accepted (oracle j) = false := by
  intro fuel
  induction fuel with
  | zero => intro s k h; exact absurd h (by simp [invoke_loop])
  | succ n ih =>
    intro s k h
    by_cases hacc : accepted (oracle s) = true
    · have : some s = some k := by simpa [invoke_loop, hacc] using h
      obtain rfl : s = k := Option.some.inj this
      exact ⟨hacc, Nat.le_refl s, fun j hj hj' => absurd hj (Nat.not_le.mpr hj')⟩
    · have h' : invoke_loop oracle n (s + 1) = some k := by
        simpa [invoke_loop, hacc] using h
      obtain ⟨h1, h2, h3⟩ := ih (s + 1) k h'
      refine ⟨h1, Nat.le_of_succ_le h2, fun j hj hj' => ?_⟩
      rcases Nat.lt_or_ge s j with hlt | hge
      · exact h3 j hlt hj'
      · have : j = s := Nat.le_antisymm hge hj
        subst this
        exact Bool.eq_false_iff.mpr hacc

theorem invoke_loop_none (oracle : Nat → InvokeOutcome)
    (h : ∀ j, accepted (oracle j) = false) :
    ∀ (fuel s : Nat), invoke_loop oracle fuel s = none := by
  intro fuel
  induction fuel with
  | zero => intro s; rfl
  | succ n ih => intro s; simp [invoke_loop, h s, ih]

theorem invoke_loop_live (oracle : Nat → InvokeOutcome) :
    ∀ (fuel s n : Nat), s ≤ n → n < s + fuel → accepted (oracle n) = true →
      ∃ k, invoke_loop oracle fuel s = some k ∧ k ≤ n := by
  intro fuel
  induction fuel with
  | zero =>
    intro s n hsn hn _
    exact absurd hn (by omega)
  | succ m ih =>
    intro s n hsn hn hacc
    by_cases hs : accepted (oracle s) = true
    · exact ⟨s, by simp [invoke_loop, hs], hsn⟩
    · have hne : s ≠ n := fun he => hs (he ▸ hacc)
      obtain ⟨k, hk, hkn⟩ := ih (s + 1) n (by omega) (by omega) hacc
      exact ⟨k, by simp [invoke_loop, hs, hk], hkn⟩

theorem runInit_succ (u : String → ExecutionContext) (s : String) :
    ∀ n, runInit u (some s) (n + 1) =
      { exec_ctx := CloudFunctionContext.Lambda (u s) Arena.new,
        init_done := true, rehydrate_count := 1 } := by
  intro n
  induction n with
  | zero => rfl
  | succ m ih =>
    show (match init_exec_context false u (some s) (runInit u (some s) (m + 1)) with
      | Except.ok (_, _, st') => st'
      | Except.error _ => runInit u (some s) (m + 1)) = _
    rw [ih]
    rfl

/-! ## Claim theorems -/

/-- Claim C7: for every batch list, task id and compression tag (the
identity tag included), decoding the encoded wire payload returns exactly
the original batches and task id, for batches of 0, 1 and many rows. -/
theorem claim_C7_codec_round_trip (bs : List RecordBatch) (uuid : Uuid) (e : Encoding) :
    decodePayload (encodePayload bs uuid e) = some (bs, uuid) :=
  decodePayload_encodePayload bs uuid e

/-- Claim C4: minting `k` task ids for one fan-out yields `k` identifiers
sharing the stage-name-derived group identity and `total_fragments = k`,
with sequence indexes `0..k-1` matching output-partition order (the request
built for partition `i` carries sequence index `i`); two mint calls at
distinct fan-out counters yield distinct group identities. -/
theorem claim_C4_taskid_minting (name : String) (ctr ctr' k : Nat) (hk : 1 ≤ k)
    (hne : ctr ≠ ctr') :
    (mint name ctr k).length = k ∧
    (mint name ctr k).map Uuid.seq_num = List.range k ∧
    (∀ u ∈ mint name ctr k,
      u.tid = { stage := name, fanout_ctr := ctr } ∧ u.seq_len = k) ∧
    (∀ u ∈ mint name ctr k, ∀ u' ∈ mint name ctr' k, u.tid ≠ u'.tid) ∧
    (∀ (ctx : ExecutionContext) (fc : Nat) (batches : List RecordBatch) (nf : String),
      next_function ctx = Except.ok nf →
      ∀ reqs, invoke_next_functions ctx fc batches = Except.ok reqs →
        ∀ i, i < batches.length →
          decodePayload
              ((reqs.getD i { function_name := "", invoke_args := [] }).invoke_args) =
            some ([batches.getD i { rows := [] }],
              (UuidBuilder.new ctx.name fc batches.length).get i)) := by
  refine ⟨by simp [mint], ?_, ?_, ?_, ?_⟩
  · simp only [mint, List.map_map]
    have hcomp : Uuid.seq_num ∘ (UuidBuilder.new name ctr k).get = id := rfl
    rw [hcomp, List.map_id]
  · intro u hu
    simp only [mint, List.mem_map, List.mem_range] at hu
    obtain ⟨i, _, rfl⟩ := hu
    exact ⟨rfl, rfl⟩
  · intro u hu u' hu'
    simp only [mint, List.mem_map, List.mem_range] at hu hu'
    obtain ⟨i, _, rfl⟩ := hu
    obtain ⟨i', _, rfl⟩ := hu'
    simp [UuidBuilder.new, UuidBuilder.get, hne]
  · intro ctx fc batches nf hnf reqs hreqs i hi
    rw [invoke_next_functions_ok ctx fc batches nf hnf] at hreqs
    obtain rfl := Except.ok.inj hreqs
    rw [enum_map_getD batches _ i hi _ { rows := [] }]
    exact decodePayload_encodePayload _ _ _

/-- Claim C4 witness: two fragments minted at fan-out counter 0 of stage
`q5` carry sequence indexes 0 and 1. -/
theorem claim_C4_witness : (mint "q5" 0 2).map Uuid.seq_num = List.range 2 :=
  (claim_C4_taskid_minting "q5" 0 1 2 (by decide) (by decide)).2.1

/-- Claim C3: the per-partition invocation loop never terminates without
observing an accepted attempt: a terminating run stops at the first
accepted attempt, a run whose oracle never accepts returns no result under
any fuel, an accepted attempt within fuel guarantees termination no later
than it, and every attempt of one partition rebuilds the identical
request. -/
theorem claim_C3_retry_until_acceptance (oracle : Nat → InvokeOutcome) (fuel k : Nat) :
    (invoke_loop oracle fuel 0 = some k →
      accepted (oracle k) = true ∧ ∀ j, j < k → accepted (oracle j) = false) ∧
    ((∀ j, accepted (oracle j) = false) → invoke_loop oracle fuel 0 = none) ∧
    (∀ n, n < fuel → accepted (oracle n) = true →
      ∃ j, invoke_loop oracle fuel 0 = some j ∧ j ≤ n) ∧
    (∀ (nf : String) (ub : UuidBuilder) (b : RecordBatch) (i a a' : Nat),
      loop_request nf ub b i a = loop_request nf ub b i a') := by
  refine ⟨?_, ?_, ?_, fun nf ub b i a a' => rfl⟩
  · intro h
    obtain ⟨h1, _, h3⟩ := invoke_loop_some oracle fuel 0 k h
    exact ⟨h1, fun j hj => h3 j (Nat.zero_le j) hj⟩
  · intro h
    exact invoke_loop_none oracle h fuel 0
  · intro n hn hacc
    exact invoke_loop_live oracle fuel 0 n (Nat.zero_le n) (by omega) hacc

/-- Claim C3 witness: an oracle rejecting the first two attempts is
accepted on its third attempt, and an oracle that never accepts keeps the
loop from returning. -/
theorem claim_C3_witness :
    accepted (oracleReject2 2) = true ∧ invoke_loop oracleNever 7 0 = none :=
  ⟨((claim_C3_retry_until_acceptance oracleReject2 5 2).1 (by decide)).1,
   (claim_C3_retry_until_acceptance oracleNever 7 0).2.1 (fun _ => rfl)⟩

/-- Claim C8: outside testing mode the stage descriptor is rehydrated at
most once per warm process — after any positive number of activations the
rehydration count is exactly one and further activations hand out the
cached context and arena unchanged — and an activation with the
execution-context environment variable absent aborts fatally. -/
theorem claim_C8_descriptor_rehydrated_once (u : String → ExecutionContext)
    (s : String) (n : Nat) :
    (runInit u (some s) (n + 1)).rehydrate_count = 1 ∧
    init_exec_context false u (some s) (runInit u (some s) (n + 1)) =
      Except.ok (u s, Arena.new, runInit u (some s) (n + 1)) ∧
    init_exec_context false u none ProcState.fresh =
      Except.error "No execution context in the cloud environment." := by
  refine ⟨by rw [runInit_succ], ?_, rfl⟩
  rw [runInit_succ]
  rfl

/-- Claim C1: a payload activation reassembles if and only if the routing
is terminal or single; a group-routed stage takes the single decoded
payload as the complete input with the arena untouched, while a
terminal/single stage's input comes from the arena (drained when the
insert completes the group, an error otherwise); the handler dispatches
payload-datasource activations to `payload_handler`. -/
theorem claim_C1_reassembly_iff_routing (ctx : ExecutionContext) (arena : Arena)
    (event : Event) :
    (requires_reassembly ctx.next = true ↔
      ctx.next = CloudFunction.None ∨ ∃ nm, ctx.next = CloudFunction.Solo nm) ∧
    (∀ g w, ctx.next = CloudFunction.Chorus g w →
      ∀ bs uuid, Payload.to_batch event = some (bs, uuid) →
        payload_input ctx arena event = (Except.ok [bs], arena)) ∧
    (requires_reassembly ctx.next = true →
      ∀ r uuid a', Arena.reassemble arena event = some (r, uuid, a') →
        payload_input ctx arena event =
          (if r then (Except.ok (Arena.lookup a' uuid.tid), Arena.erase a' uuid.tid)
           else (Except.error "window data collection has not been completed.", a'))) ∧
    (∀ exec pbs par fc, ctx.datasource = DataSource.Payload →
      handler exec pbs par fc ctx arena event =
        payload_handler exec pbs fc ctx arena event) := by
  refine ⟨?_, ?_, ?_, ?_⟩
  · cases ctx.next <;> simp [requires_reassembly]
  · intro g w hg bs uuid hb
    simp [payload_input, requires_reassembly, hg, hb]
  · intro hreq r uuid a' hre
    cases r <;> simp [payload_input, hreq, hre, Arena.batches]
  · intro exec pbs par fc hds
    simp [handler, hds]

/-- Claim C1 witness: a group-routed stage takes the decoded one-batch
payload as its complete input, leaving the arena untouched. -/
theorem claim_C1_witness :
    payload_input ctxChorus Arena.new eventOne = (Except.ok [[batchA]], Arena.new) :=
  (claim_C1_reassembly_iff_routing ctxChorus Arena.new eventOne).2.1
    "stage2" 4 rfl [batchA] uuidOne (by decide)

/-- Claim C2: a terminal-routed activation whose compute succeeds performs
no downstream invocation and returns success with the stage's name. -/
theorem claim_C2_terminal_no_invocation
    (exec : List (List RecordBatch) → Except String (List RecordBatch))
    (pbs fc : Nat) (ctx : ExecutionContext) (arena : Arena) (event : Event)
    (parts : List (List RecordBatch)) (a' : Arena) (outs : List RecordBatch)
    (hterm : ctx.next = CloudFunction.None)
    (hin : payload_input ctx arena event = (Except.ok parts, a'))
    (hne : (parts.isEmpty || (parts.headD []).isEmpty) = false)
    (hexec : exec parts = Except.ok outs) :
    payload_handler exec pbs fc ctx arena event =
      (Except.ok (Json.str ctx.name, []), a') := by
  simp [payload_handler, hin, hexec, hterm]
  obtain ⟨h1, h2⟩ := Bool.or_eq_false_iff.mp hne
  refine ⟨fun h => by subst h; simp at h1, fun h => ?_⟩
  rw [← List.headD_eq_head?_getD] at h
  rw [h] at h2
  simp at h2

/-- Claim C2 witness: a terminal stage fed one complete five-row batch
acknowledges with its name and issues no invocation requests. -/
theorem claim_C2_witness :
    payload_handler execFlatten 100 7 ctxTerminal Arena.new eventOne =
      (Except.ok (Json.str "q1", []), Arena.new) :=
  claim_C2_terminal_no_invocation execFlatten 100 7 ctxTerminal Arena.new eventOne
    [[batchA]] Arena.new [batchA] rfl (by decide) (by decide) (by decide)

/-- Claim C5: empty input is rejected with an error on both branches: a
payload activation whose assembled input partitions are empty (or whose
first partition is empty) fails before compute regardless of the compute
collaborator, and an external event whose person, auction and bid
collections are all empty is rejected by `collect` and by
`nexmark_event_to_payload`. -/
theorem claim_C5_empty_input_rejected :
    (∀ (exec : List (List RecordBatch) → Except String (List RecordBatch))
      (pbs fc : Nat) (ctx : ExecutionContext) (arena : Arena) (event : Event)
      (parts : List (List RecordBatch)) (a' : Arena),
      payload_input ctx arena event = (Except.ok parts, a') →
      (parts.isEmpty || (parts.headD []).isEmpty) = true →
      payload_handler exec pbs fc ctx arena event =
        (Except.error "payload data is empty.", a')) ∧
    (∀ (exec : List (List RecordBatch) → Except String (List RecordBatch))
      (par : Nat) (ctx : ExecutionContext) (ev : NexMarkEvent),
      ev.persons = [] → ev.auctions = [] → ev.bids = [] →
      collect exec par ctx (Event.nexmark ev) = Except.error "No Nexmark input!") ∧
    (∀ (ev : NexMarkEvent) (q : Nat) (uuid : Uuid),
      ev.persons = [] → ev.auctions = [] → ev.bids = [] →
      nexmark_event_to_payload ev q uuid = Except.error "No Nexmark input!") := by
  refine ⟨?_, ?_, ?_⟩
  · intro exec pbs fc ctx arena event parts a' hin hempty
    simp [payload_handler, hin]
    intro hnil hhd
    exfalso
    rcases Bool.or_eq_true_iff.mp hempty with h | h
    · exact hnil (List.isEmpty_iff.mp h)
    · rw [← List.headD_eq_head?_getD] at hhd
      exact hhd (List.isEmpty_iff.mp h)
  · intro exec par ctx ev hp ha hb
    simp [collect, NexMarkSource.to_batch, hp, ha, hb]
  · intro ev q uuid hp ha hb
    simp [nexmark_event_to_payload, hp, ha, hb]

/-- Claim C5 witness: a payload whose decoded partition holds no batches is
rejected, and the all-empty external event is rejected on both paths. -/
theorem claim_C5_witness :
    payload_handler execFlatten 100 7 ctxChorus Arena.new eventEmpty =
      (Except.error "payload data is empty.", Arena.new) ∧
    collect execFlatten 8 ctxNexmark (Event.nexmark { persons := [], auctions := [], bids := [] }) =
      Except.error "No Nexmark input!" ∧
    nexmark_event_to_payload { persons := [], auctions := [], bids := [] } 1 uuidOne =
      Except.error "No Nexmark input!" :=
  ⟨claim_C5_empty_input_rejected.1 execFlatten 100 7 ctxChorus Arena.new eventEmpty
      [[]] Arena.new (by decide) (by decide),
   claim_C5_empty_input_rejected.2.1 execFlatten 8 ctxNexmark
      { persons := [], auctions := [], bids := [] } rfl rfl rfl,
   claim_C5_empty_input_rejected.2.2 { persons := [], auctions := [], bids := [] }
      1 uuidOne rfl rfl rfl⟩

/-- Claim C9: every successful activation acknowledges with exactly the
JSON serialization of the stage's own name, on the payload branch and the
external-event branch alike. -/
theorem claim_C9_ack_is_stage_name
    (exec : List (List RecordBatch) → Except String (List RecordBatch))
    (pbs par fc : Nat) (ctx : ExecutionContext) (arena : Arena) (event : Event) :
    (∀ v reqs a', payload_handler exec pbs fc ctx arena event = (Except.ok (v, reqs), a') →
      v = Json.str ctx.name) ∧
    (∀ v, nexmark_bench_handler exec par ctx event = Except.ok v →
      v = Json.str ctx.name) := by
  constructor
  · intro v reqs a' h
    unfold payload_handler at h
    repeat' split at h
    all_goals simp_all
  · intro v h
    unfold nexmark_bench_handler at h
    repeat' split at h
    all_goals simp_all

/-- Claim C9 witness: the concrete terminal payload activation and the
concrete NexMark activation both acknowledge with their stage's name. -/
theorem claim_C9_witness :
    Json.str "q1" = Json.str ctxTerminal.name ∧ Json.str "q2" = Json.str ctxNexmark.name :=
  ⟨(claim_C9_ack_is_stage_name execFlatten 100 8 7 ctxTerminal Arena.new eventOne).1
      (Json.str "q1") [] Arena.new (by decide),
   (claim_C9_ack_is_stage_name execFlatten 100 8 7 ctxNexmark Arena.new eventNexBids).2
      (Json.str "q2") (by decide)⟩

/-- Claim C10: a payload activation that requires reassembly and whose
arena insert does not complete the group returns an error — no
acknowledgment, and for every compute collaborator the compute is never
reached — while the inserted fragment stays accumulated under its group in
the arena. -/
theorem claim_C10_incomplete_group_errors
    (exec : List (List RecordBatch) → Except String (List RecordBatch))
    (pbs fc : Nat) (ctx : ExecutionContext) (arena : Arena) (event : Event)
    (uuid : Uuid) (a' : Arena)
    (hreq : requires_reassembly ctx.next = true)
    (hre : Arena.reassemble arena event = some (false, uuid, a')) :
    payload_handler exec pbs fc ctx arena event =
      (Except.error "window data collection has not been completed.", a') ∧
    ∀ bs u2, Payload.to_batch event = some (bs, u2) →
      u2 = uuid ∧ Arena.lookup a' uuid.tid = Arena.lookup arena uuid.tid ++ [bs] := by
  constructor
  · simp [payload_handler, payload_input, hreq, hre]
  · intro bs u2 hb
    unfold Arena.reassemble at hre
    rw [hb] at hre
    simp only [Option.some.injEq, Prod.mk.injEq] at hre
    obtain ⟨-, huuid, ha⟩ := hre
    subst huuid
    subst ha
    exact ⟨rfl, Arena.lookup_store arena u2.tid _⟩

/-- Claim C10 witness: the first of two fragments leaves the handler in
error and the fragment accumulated in the arena. -/
theorem claim_C10_witness :
    payload_handler execFlatten 100 7 ctxSolo Arena.new eventHalf =
      (Except.error "window data collection has not been completed.",
        [(uuidHalf.tid, [[batchA]])]) :=
  (claim_C10_incomplete_group_errors execFlatten 100 7 ctxSolo Arena.new eventHalf
    uuidHalf [(uuidHalf.tid, [[batchA]])] (by decide) (by decide)).1

/-- Claim C6 counterexample: a group-routed stage of fan-out width 4 handed
2 output partitions issues 2 invocations, not one per member, and every
request targets the same member name rather than the round-robin sequence
over the member list. -/
theorem claim_C6_counterexample :
    (invoke_next_functions ctxChorus 0 [batchA, batchB]).map
        (fun reqs => reqs.map InvokeRequest.function_name) =
      Except.ok ["stage2-0", "stage2-0"] ∧
    (invoke_next_functions ctxChorus 0 [batchA, batchB]).map List.length =
      Except.ok 2 ∧
    roundRobinTargets "stage2" 4 2 = ["stage2-0", "stage2-1"] ∧
    (["stage2-0", "stage2-0"] : List String) ≠ ["stage2-0", "stage2-1"] := by
  decide

/-- Claim C6 amended: a group-routed stage is invoked once per OUTPUT
PARTITION (not once per group member), every request targeting the single
function name resolved once for the whole fan-out (the group's first
member), partition `i` carrying exactly partition `i`'s data under the
freshly minted task id with sequence index `i`. -/
theorem claim_C6_group_invocations (g : String) (w : Nat) (ctx : ExecutionContext)
    (fc : Nat) (batches : List RecordBatch)
    (hg : ctx.next = CloudFunction.Chorus g w) :
    ∃ reqs, invoke_next_functions ctx fc batches = Except.ok reqs ∧
      reqs.length = batches.length ∧
      (∀ r ∈ reqs, r.function_name = groupMember g 0) ∧
      (∀ i, i < batches.length →
        decodePayload
            ((reqs.getD i { function_name := "", invoke_args := [] }).invoke_args) =
          some ([batches.getD i { rows := [] }],
            { tid := { stage := ctx.name, fanout_ctr := fc },
              seq_num := i, seq_len := batches.length })) := by
  have hnf : next_function ctx = Except.ok (groupMember g 0) := by
    simp [next_function, hg]
  refine ⟨_, invoke_next_functions_ok ctx fc batches _ hnf, enum_map_length _ _, ?_, ?_⟩
  · intro r hr
    simp only [List.mem_map] at hr
    obtain ⟨p, -, rfl⟩ := hr
    rfl
  · intro i hi
    rw [enum_map_getD batches _ i hi _ { rows := [] }]
    exact decodePayload_encodePayload _ _ _

/-- Claim C6 witness: the amended statement at the concrete width-4 group
stage with two output partitions. -/
theorem claim_C6_witness :
    ∃ reqs, invoke_next_functions ctxChorus 0 [batchA, batchB] = Except.ok reqs ∧
      reqs.length = [batchA, batchB].length ∧
      (∀ r ∈ reqs, r.function_name = groupMember "stage2" 0) ∧
      (∀ i, i < [batchA, batchB].length →
        decodePayload
            ((reqs.getD i { function_name := "", invoke_args := [] }).invoke_args) =
          some ([[batchA, batchB].getD i { rows := [] }],
            { tid := { stage := ctxChorus.name, fanout_ctr := 0 },
              seq_num := i, seq_len := [batchA, batchB].length })) :=
  claim_C6_group_invocations "stage2" 4 ctxChorus 0 [batchA, batchB] rfl
